import Mathlib

/-!
Verification of the piet backend-adaptation layer: a shallow embedding of the
cairo bitmap target (pixel extraction) and of the CoreGraphics render context
(path conversion, brushes, save/restore), with theorems settling the spec's
claims about them.
-/

set_option maxHeartbeats 1000000

/-- Modelled from the spec: the error taxonomy of section 7 (the piet ErrorKind
enumeration itself is declared outside the embedded source files). -/
inductive ErrorKind where
  | NotSupported
  | MissingFeature
  | BackendFailure
  deriving DecidableEq, Repr

/-- Outcome of running a fallible Rust operation: an Ok value, an Err carrying a
piet error kind, or a panic (an unimplemented stub or a failed unwrap). -/
inductive RunResult (α : Type) where
  | ok : α → RunResult α
  | err : ErrorKind → RunResult α
  | panicked : RunResult α
  deriving DecidableEq, Repr

/-- Modelled from the spec: the pixel formats of the piet interface (declared
outside the embedded source files); the cairo target supports only RgbaPremul. -/
inductive ImageFormat where
  | Rgb
  | RgbaSeparate
  | RgbaPremul
  deriving DecidableEq, Repr

/-- A 2D point with rational coordinates (idealizing the f64 coordinates used by
the geometry collaborator). -/
structure Point where
  x : ℚ
  y : ℚ
  deriving DecidableEq, Repr

/-- Point::default() of the geometry collaborator is the origin. -/
def Point.default : Point := ⟨0, 0⟩

def Point.add (p q : Point) : Point := ⟨p.x + q.x, p.y + q.y⟩

def Point.sub (p q : Point) : Point := ⟨p.x - q.x, p.y - q.y⟩

def Point.smul (c : ℚ) (p : Point) : Point := ⟨c * p.x, c * p.y⟩

/-- Modelled from the spec: an axis-aligned rectangle supplied by the geometry
collaborator. -/
structure Rect where
  x0 : ℚ
  y0 : ℚ
  x1 : ℚ
  y1 : ℚ
  deriving DecidableEq, Repr

/-- Modelled from the spec: the path-element vocabulary of the geometry
collaborator (MoveTo, LineTo, QuadTo, CurveTo, ClosePath). -/
inductive PathEl where
  | MoveTo : Point → PathEl
  | LineTo : Point → PathEl
  | QuadTo : Point → Point → PathEl
  | CurveTo : Point → Point → Point → PathEl
  | ClosePath : PathEl
  deriving DecidableEq, Repr

/-- A quadratic Bezier curve given by its three control points. -/
structure QuadBez where
  p0 : Point
  p1 : Point
  p2 : Point
  deriving DecidableEq, Repr

/-- A cubic Bezier curve given by its four control points. -/
structure CubicBez where
  p0 : Point
  p1 : Point
  p2 : Point
  p3 : Point
  deriving DecidableEq, Repr

/-- Modelled from the spec: degree elevation of a quadratic Bezier (the raise
operation of the geometry collaborator, invoked by set_path): the endpoints are
kept and the control points are placed at last + 2/3*(ctrl-last) and at
end + 2/3*(ctrl-end). -/
def QuadBez.raise (q : QuadBez) : CubicBez :=
  { p0 := q.p0
    p1 := q.p0.add (Point.smul (2 / 3) (q.p1.sub q.p0))
    p2 := q.p2.add (Point.smul (2 / 3) (q.p1.sub q.p2))
    p3 := q.p2 }

/-- Modelled from the spec: evaluation of a quadratic Bezier at parameter t, in
Bernstein form. -/
def QuadBez.eval (q : QuadBez) (t : ℚ) : Point :=
  (Point.smul ((1 - t) ^ 2) q.p0).add
    ((Point.smul (2 * (1 - t) * t) q.p1).add (Point.smul (t ^ 2) q.p2))

/-- Modelled from the spec: evaluation of a cubic Bezier at parameter t, in
Bernstein form. -/
def CubicBez.eval (c : CubicBez) (t : ℚ) : Point :=
  (Point.smul ((1 - t) ^ 3) c.p0).add
    ((Point.smul (3 * (1 - t) ^ 2 * t) c.p1).add
      ((Point.smul (3 * (1 - t) * t ^ 2) c.p2).add (Point.smul (t ^ 3) c.p3)))

/-- A cairo image surface: pixel dimensions, the row stride in bytes, and the
native byte buffer (one Nat per byte, each below 256 in well-formed surfaces). -/
structure ImageSurface where
  width : Nat
  height : Nat
  stride : Nat
  data : Array Nat
  deriving DecidableEq, Repr

/-- Modelled from the spec: the backend surface allocator (cairo's ARGB32 image
surface creation, outside the embedded source files). It allocates a zeroed
surface whose stride is at least the tight row byte width, and fails for
dimensions the backend cannot create (negative, or beyond its size limit of
32767). -/
def ImageSurface.create (w h : Int) : Option ImageSurface :=
  if 0 ≤ w ∧ w ≤ 32767 ∧ 0 ≤ h ∧ h ≤ 32767 then
    some { width := w.toNat
           height := h.toNat
           stride := w.toNat * 4
           data := Array.mkArray (h.toNat * (w.toNat * 4)) 0 }
  else none

/-- The value of a usize cast to i32 with two's-complement wraparound (the
`width as i32` casts in Device::bitmap_target). -/
def usizeAsI32 (n : Nat) : Int :=
  let r : Nat := n % 2 ^ 32
  if r < 2 ^ 31 then (r : Int) else (r : Int) - 2 ^ 32

/-- Modelled from the spec: the backend drawing context bound to a surface; we
track the dimensions of the surface it was created over and the accumulated
scale transform applied to it. -/
structure CairoContext where
  surfaceWidth : Nat
  surfaceHeight : Nat
  scale : ℚ
  deriving DecidableEq, Repr

/-- Context::new binds a fresh backend context (identity transform) to a surface. -/
def Context.new (s : ImageSurface) : CairoContext :=
  { surfaceWidth := s.width, surfaceHeight := s.height, scale := 1 }

/-- The cr.scale(k, k) call: composes a uniform scale onto the context transform. -/
def CairoContext.scaleBy (c : CairoContext) (k : ℚ) : CairoContext :=
  { c with scale := c.scale * k }

/-- A cairo bitmap target: the owned raster surface and the live context bound
to it. -/
structure BitmapTarget where
  surface : ImageSurface
  cr : CairoContext
  deriving DecidableEq, Repr

/-- Device::bitmap_target: creates an ARGB32 surface of the requested pixel
size, unwraps the creation result (panicking when the backend fails), binds a
context to the surface, and applies the pixel scale to it. -/
def Device.bitmap_target (width height : Nat) (pix_scale : ℚ) : RunResult BitmapTarget :=
  match ImageSurface.create (usizeAsI32 width) (usizeAsI32 height) with
  | none => .panicked
  | some surface =>
      let cr := (Context.new surface).scaleBy pix_scale
      .ok { surface := surface, cr := cr }

/-- The disposable zero-sized surface created inside get_raw_pixels so a
placeholder context can stand in for the live one during extraction. -/
def placeholderSurface : ImageSurface :=
  { width := 0, height := 0, stride := 0, data := #[] }

/-- One iteration of the inner pixel loop of get_raw_pixels: the four native
bytes of pixel x of the current row are read (an out-of-bounds read being a
Rust panic, modelled as none) and written into the packed output with bytes 0
and 2 swapped and byte 3 (alpha) copied unchanged, exactly as the four
assignment statements of the source do. -/
def convertPixel (buf : Array Nat) (srcOff dstOff x : Nat) (raw : Array Nat) :
    Option (Array Nat) :=
  match buf[srcOff + x * 4 + 2]?, buf[srcOff + x * 4 + 1]?,
        buf[srcOff + x * 4]?, buf[srcOff + x * 4 + 3]? with
  | some r, some g, some b, some a =>
      some ((((raw.setD (dstOff + x * 4) r).setD (dstOff + x * 4 + 1) g).setD
        (dstOff + x * 4 + 2) b).setD (dstOff + x * 4 + 3) a)
  | _, _, _, _ => none

/-- The x loop of get_raw_pixels: copies the width pixels of row y, with the row
offsets src_off = y*stride and dst_off = y*width*4 of the source. -/
def copyRow (buf : Array Nat) (stride width y : Nat) (raw : Array Nat) :
    Option (Array Nat) :=
  (List.range width).foldlM (fun r x => convertPixel buf (y * stride) (y * width * 4) x r) raw

/-- The y loop of get_raw_pixels: copies every row of the surface. -/
def copyRows (buf : Array Nat) (stride width height : Nat) (raw : Array Nat) :
    Option (Array Nat) :=
  (List.range height).foldlM (fun r y => copyRow buf stride width y r) raw

/-- BitmapTarget::get_raw_pixels: rejects every format except RgbaPremul with
NotSupported before touching anything; otherwise swaps in a placeholder
context, flushes the surface, copies the native buffer row by row into a
tightly packed width*height*4 output, and rebinds a fresh context to the
surface. Returns the result together with the target state after the call. -/
def BitmapTarget.get_raw_pixels (t : BitmapTarget) (fmt : ImageFormat) :
    RunResult (Array Nat) × BitmapTarget :=
  if fmt ≠ ImageFormat.RgbaPremul then (.err .NotSupported, t)
  else
    let t1 : BitmapTarget := { t with cr := Context.new placeholderSurface }
    let stride := t1.surface.stride
    let width := t1.surface.width
    let height := t1.surface.height
    let raw_data := Array.mkArray (width * height * 4) 0
    match copyRows t1.surface.data stride width height raw_data with
    | none => (.panicked, t1)
    | some out => (.ok out, { t1 with cr := Context.new t1.surface })

/-- BitmapTarget::into_raw_pixels: the consuming variant simply delegates to
get_raw_pixels and returns its result. -/
def BitmapTarget.into_raw_pixels (t : BitmapTarget) (fmt : ImageFormat) :
    RunResult (Array Nat) :=
  (t.get_raw_pixels fmt).1

/-- BitmapTarget::save_to_file, parameterized over whether the png feature is
compiled in and over the external png-encoder collaborator; without the feature
it is the stub that returns MissingFeature without attempting anything. -/
def BitmapTarget.save_to_file (pngFeature : Bool)
    (encoder : Nat → Nat → Array Nat → RunResult Unit)
    (t : BitmapTarget) (_savePath : String) : RunResult Unit × BitmapTarget :=
  if pngFeature then
    let height := t.surface.height
    let width := t.surface.width
    match t.get_raw_pixels ImageFormat.RgbaPremul with
    | (.ok image, t2) => (encoder width height image, t2)
    | (.err e, t2) => (.err e, t2)
    | (.panicked, t2) => (.panicked, t2)
  else (.err .MissingFeature, t)

/-- Modelled from the spec: an affine transform of the geometry collaborator. -/
structure Affine2 where
  a : ℚ
  b : ℚ
  c : ℚ
  d : ℚ
  e : ℚ
  f : ℚ
  deriving DecidableEq, Repr

/-- The identity affine transform. -/
def Affine2.id : Affine2 := ⟨1, 0, 0, 1, 0, 0⟩

/-- A backend path-building call recorded by the CGContext model. -/
inductive CGPathOp where
  | moveTo (x y : ℚ)
  | lineTo (x y : ℚ)
  | curveTo (c1x c1y c2x c2y x y : ℚ)
  | close
  deriving DecidableEq, Repr

/-- A drawing command executed by the CGContext model (evenOdd marks the
winding rule used by a fill). -/
inductive CGDrawOp where
  | fillDraw (evenOdd : Bool) (color : Option (ℚ × ℚ × ℚ × ℚ)) (path : List CGPathOp)
  | strokeDraw (color : Option (ℚ × ℚ × ℚ × ℚ)) (path : List CGPathOp)
  deriving DecidableEq, Repr

/-- Modelled from the spec: the graphics state that the backend's save/restore
primitives push and pop — the current transform, the clip region, and the paint
state. -/
structure GState where
  ctm : Affine2
  clip : List (List CGPathOp)
  fillColor : Option (ℚ × ℚ × ℚ × ℚ)
  strokeColor : Option (ℚ × ℚ × ℚ × ℚ)
  lineWidth : ℚ
  deriving DecidableEq, Repr

/-- The initial graphics state of a fresh backend context. -/
def GState.initial : GState := ⟨Affine2.id, [], none, none, 1⟩

/-- Modelled from the spec: the backend drawing engine's context — the current
graphics state, the stack of saved states, the transient path, and the record
of executed drawing commands. -/
structure CGContext where
  gstate : GState
  gstack : List GState
  path : List CGPathOp
  drawn : List CGDrawOp
  deriving DecidableEq, Repr

/-- The backend save primitive: pushes the current graphics state. -/
def CGContext.saveGState (c : CGContext) : CGContext :=
  { c with gstack := c.gstate :: c.gstack }

/-- Modelled from the spec: the backend restore primitive pops the saved-state
stack; with no matching save it reports nothing to its caller and leaves the
state as it is. -/
def CGContext.restoreGState (c : CGContext) : CGContext :=
  match c.gstack with
  | [] => c
  | g :: rest => { c with gstate := g, gstack := rest }

/-- The backend begin-path primitive: clears the transient path. -/
def CGContext.beginPath (c : CGContext) : CGContext := { c with path := [] }

def CGContext.move_to_point (c : CGContext) (x y : ℚ) : CGContext :=
  { c with path := c.path ++ [.moveTo x y] }

def CGContext.add_line_to_point (c : CGContext) (x y : ℚ) : CGContext :=
  { c with path := c.path ++ [.lineTo x y] }

def CGContext.add_curve_to_point (c : CGContext) (c1x c1y c2x c2y x y : ℚ) : CGContext :=
  { c with path := c.path ++ [.curveTo c1x c1y c2x c2y x y] }

def CGContext.close_path (c : CGContext) : CGContext :=
  { c with path := c.path ++ [.close] }

def CGContext.set_rgb_fill_color (c : CGContext) (r g b a : ℚ) : CGContext :=
  { c with gstate := { c.gstate with fillColor := some (r, g, b, a) } }

/-- The backend fill primitive: records a nonzero-winding fill of the current
path with the current fill color and clears the transient path. -/
def CGContext.fill_path (c : CGContext) : CGContext :=
  { c with path := [], drawn := c.drawn ++ [.fillDraw false c.gstate.fillColor c.path] }

/-- The CoreGraphics brush: a solid 32-bit RGBA color, or the reserved gradient
variant. -/
inductive Brush where
  | Solid : Nat → Brush
  | Gradient : Brush
  deriving DecidableEq, Repr

/-- A clone-on-write value: either borrowed from the original or owned. -/
inductive Cow (α : Type) where
  | Borrowed : α → Cow α
  | Owned : α → Cow α
  deriving DecidableEq, Repr

def Cow.get {α : Type} : Cow α → α
  | .Borrowed a => a
  | .Owned a => a

/-- Modelled from the spec: an opaque fixed-gradient descriptor (gradient
construction is specified only at its boundary). -/
structure FixedGradient where
  stops : List (ℚ × Nat)
  deriving DecidableEq, Repr

/-- IntoBrush::make_brush for the CoreGraphics Brush: returns a borrowed copy
of the brush itself; neither the context nor the bounding-box thunk is used. -/
def Brush.make_brush (b : Brush) (_piet : CGContext) (_bbox : Unit → Rect) : Cow Brush :=
  Cow.Borrowed b

/-- byte_to_frac: the low byte of a u32 mapped to the unit interval. -/
def byte_to_frac (byte : Nat) : ℚ := ((byte % 256 : Nat) : ℚ) * (1 / 255)

/-- CoreGraphicsContext::gradient is an unimplemented stub: it panics for every
descriptor, mutating nothing. -/
def CoreGraphicsContext.gradient (c : CGContext) (_gd : FixedGradient) :
    RunResult Brush × CGContext :=
  (.panicked, c)

/-- CoreGraphicsContext::set_fill_brush: a solid brush sets the backend fill
color from its four bytes; a gradient brush hits an unimplemented stub and
panics. -/
def CoreGraphicsContext.set_fill_brush (c : CGContext) (brush : Brush) :
    RunResult Unit × CGContext :=
  match brush with
  | .Solid rgba =>
      (.ok (), c.set_rgb_fill_color (byte_to_frac (rgba / 2 ^ 24))
        (byte_to_frac (rgba / 2 ^ 16)) (byte_to_frac (rgba / 2 ^ 8)) (byte_to_frac rgba))
  | .Gradient => (.panicked, c)

/-- The state threaded through set_path's element loop: the backend context
being driven and the tracked last point. -/
structure SetPathState where
  ctx : CGContext
  last : Point
  deriving DecidableEq, Repr

/-- One step of CoreGraphicsContext::set_path's element loop: MoveTo and LineTo
emit the matching backend call and set last to their point; QuadTo elevates the
quadratic (last, ctrl, end) to a cubic and sets last to its end point; CurveTo
emits the backend curve call and sets last to its end point; ClosePath emits
the backend close call and leaves last unchanged. -/
def setPathStep (s : SetPathState) (el : PathEl) : SetPathState :=
  match el with
  | .MoveTo p => { ctx := s.ctx.move_to_point p.x p.y, last := p }
  | .LineTo p => { ctx := s.ctx.add_line_to_point p.x p.y, last := p }
  | .QuadTo p1 p2 =>
      let q : QuadBez := ⟨s.last, p1, p2⟩
      let c := q.raise
      { ctx := s.ctx.add_curve_to_point c.p1.x c.p1.y c.p2.x c.p2.y p2.x p2.y, last := p2 }
  | .CurveTo p1 p2 p3 =>
      { ctx := s.ctx.add_curve_to_point p1.x p1.y p2.x p2.y p3.x p3.y, last := p3 }
  | .ClosePath => { ctx := s.ctx.close_path, last := s.last }

/-- CoreGraphicsContext::set_path: begin a fresh backend path, then drive the
shape's element sequence through the backend path builder, tracking the last
point (initially Point::default()) for quadratic-to-cubic elevation. The shape
is represented by the element sequence its to_bez_path iteration produces. -/
def CoreGraphicsContext.set_path (c : CGContext) (shape : List PathEl) : CGContext :=
  (shape.foldl setPathStep { ctx := c.beginPath, last := Point.default }).ctx

/-- The control points mentioned by one path element. -/
def PathEl.points : PathEl → List Point
  | .MoveTo p => [p]
  | .LineTo p => [p]
  | .QuadTo p1 p2 => [p1, p2]
  | .CurveTo p1 p2 p3 => [p1, p2, p3]
  | .ClosePath => []

/-- Modelled from the spec: the bounding-box query of the geometry
collaborator, as the min/max envelope of the shape's control points. -/
def shapeBoundingBox (shape : List PathEl) : Rect :=
  let pts := (shape.map PathEl.points).flatten
  { x0 := (pts.map Point.x).foldr min 0
    y0 := (pts.map Point.y).foldr min 0
    x1 := (pts.map Point.x).foldr max 0
    y1 := (pts.map Point.y).foldr max 0 }

/-- CoreGraphicsContext::fill: resolve the brush against the shape's bounding
box, set the backend path, set the fill brush, then run the backend fill; a
panic while setting the brush aborts the call before the fill executes. -/
def CoreGraphicsContext.fill (c : CGContext) (shape : List PathEl) (brush : Brush) :
    RunResult Unit × CGContext :=
  let b := (brush.make_brush c (fun _ => shapeBoundingBox shape)).get
  let c1 := CoreGraphicsContext.set_path c shape
  match CoreGraphicsContext.set_fill_brush c1 b with
  | (.ok _, c2) => (.ok (), c2.fill_path)
  | (.err e, c2) => (.err e, c2)
  | (.panicked, c2) => (.panicked, c2)

/-- RenderContext::save for CoreGraphics: pushes the backend graphics state and
always returns Ok. -/
def CoreGraphicsContext.save (c : CGContext) : RunResult Unit × CGContext :=
  (.ok (), c.saveGState)

/-- RenderContext::restore for CoreGraphics: calls the backend restore
primitive and always returns Ok, whether or not a matching save exists. -/
def CoreGraphicsContext.restore (c : CGContext) : RunResult Unit × CGContext :=
  (.ok (), c.restoreGState)

/-- The state transition of one save call. -/
def saveState (c : CGContext) : CGContext := (CoreGraphicsContext.save c).2

/-- The state transition of one restore call. -/
def restoreState (c : CGContext) : CGContext := (CoreGraphicsContext.restore c).2

/-- A fresh CoreGraphics backend context with nothing saved, drawn, or pathed. -/
def cgFresh : CGContext :=
  { gstate := GState.initial, gstack := [], path := [], drawn := [] }

/-- A concrete gradient descriptor used to instantiate gradient claims. -/
def gradDesc : FixedGradient := ⟨[(0, 0xff0000ff)]⟩

/-- A concrete 1x2 surface whose stride (8) strictly exceeds the tight row
width (4), with recognizable native bytes. -/
def sampleSurface : ImageSurface :=
  { width := 1, height := 2, stride := 8
    data := #[10, 20, 30, 40, 0, 0, 0, 0, 50, 60, 70, 80, 0, 0, 0, 0] }

/-- A bitmap target over the sample surface. -/
def sampleTarget : BitmapTarget :=
  { surface := sampleSurface, cr := Context.new sampleSurface }

/-- Degree elevation is exact: the raised cubic agrees with the quadratic at every
parameter value. -/
lemma raise_eval_eq (q : QuadBez) (t : ℚ) : (QuadBez.raise q).eval t = q.eval t := by
  obtain ⟨⟨p0x, p0y⟩, ⟨p1x, p1y⟩, ⟨p2x, p2y⟩⟩ := q
  simp only [QuadBez.raise, QuadBez.eval, CubicBez.eval, Point.add, Point.sub, Point.smul,
    Point.mk.injEq]
  constructor <;> ring

/-- C3: for any three points (last, ctrl, end), the cubic produced by elevating the
quadratic (last, ctrl, end) evaluates, at each parameter t in {0, 1/4, 1/2, 3/4, 1},
to the same point as the quadratic Bezier evaluated at t, within tolerance 1e-9 in
each coordinate (the agreement is in fact exact). -/
theorem quad_elevation_exact (last ctrl endp : Point) (t : ℚ)
    (ht : t = 0 ∨ t = 1/4 ∨ t = 1/2 ∨ t = 3/4 ∨ t = 1) :
    |((QuadBez.raise ⟨last, ctrl, endp⟩).eval t).x - (QuadBez.eval ⟨last, ctrl, endp⟩ t).x| ≤
        1 / 1000000000 ∧
    |((QuadBez.raise ⟨last, ctrl, endp⟩).eval t).y - (QuadBez.eval ⟨last, ctrl, endp⟩ t).y| ≤
        1 / 1000000000 := by
  rw [raise_eval_eq]
  norm_num

/-- Witness for C3: the elevation agreement at concrete points and t = 1/2. -/
theorem quad_elevation_exact_witness :
    ((1 : ℚ)/2 = 0 ∨ (1 : ℚ)/2 = 1/4 ∨ (1 : ℚ)/2 = 1/2 ∨ (1 : ℚ)/2 = 3/4 ∨ (1 : ℚ)/2 = 1) ∧
    (|((QuadBez.raise ⟨⟨0, 0⟩, ⟨1, 2⟩, ⟨3, 1⟩⟩).eval (1/2)).x -
        (QuadBez.eval ⟨⟨0, 0⟩, ⟨1, 2⟩, ⟨3, 1⟩⟩ (1/2)).x| ≤ 1 / 1000000000 ∧
     |((QuadBez.raise ⟨⟨0, 0⟩, ⟨1, 2⟩, ⟨3, 1⟩⟩).eval (1/2)).y -
        (QuadBez.eval ⟨⟨0, 0⟩, ⟨1, 2⟩, ⟨3, 1⟩⟩ (1/2)).y| ≤ 1 / 1000000000) :=
  ⟨Or.inr (Or.inr (Or.inl rfl)),
    quad_elevation_exact ⟨0, 0⟩ ⟨1, 2⟩ ⟨3, 1⟩ (1/2) (Or.inr (Or.inr (Or.inl rfl)))⟩

/-- C4: requesting any pixel format other than RgbaPremul fails with NotSupported,
performs no extraction, and returns the bitmap target unchanged. -/
theorem get_raw_pixels_rejects_other_formats (t : BitmapTarget) (fmt : ImageFormat)
    (hfmt : fmt ≠ ImageFormat.RgbaPremul) :
    t.get_raw_pixels fmt = (RunResult.err ErrorKind.NotSupported, t) := by
  simp [BitmapTarget.get_raw_pixels, hfmt]

/-- Witness for C4 at the Rgb format and a concrete target. -/
theorem get_raw_pixels_rejects_other_formats_witness :
    ImageFormat.Rgb ≠ ImageFormat.RgbaPremul ∧
    sampleTarget.get_raw_pixels ImageFormat.Rgb =
      (RunResult.err ErrorKind.NotSupported, sampleTarget) :=
  ⟨by decide, get_raw_pixels_rejects_other_formats sampleTarget ImageFormat.Rgb (by decide)⟩

/-- C5 counterexample: on a concrete context and gradient descriptor, gradient hits
its unimplemented stub and panics; it does not return a NotSupported error result. -/
theorem gradient_panics_cex :
    (CoreGraphicsContext.gradient cgFresh gradDesc).1 = RunResult.panicked ∧
    (CoreGraphicsContext.gradient cgFresh gradDesc).1 ≠
      RunResult.err ErrorKind.NotSupported :=
  ⟨rfl, by decide⟩

/-- Every path-conversion step leaves the record of executed drawing commands
untouched. -/
lemma setPathStep_drawn (s : SetPathState) (el : PathEl) :
    (setPathStep s el).ctx.drawn = s.ctx.drawn := by
  cases el <;>
    simp [setPathStep, CGContext.move_to_point, CGContext.add_line_to_point,
      CGContext.add_curve_to_point, CGContext.close_path]

/-- Folding the path-conversion step over a whole element list draws nothing. -/
lemma foldl_setPathStep_drawn (els : List PathEl) (s : SetPathState) :
    (els.foldl setPathStep s).ctx.drawn = s.ctx.drawn := by
  induction els generalizing s with
  | nil => rfl
  | cons e es ih => rw [List.foldl_cons, ih, setPathStep_drawn]

/-- set_path never executes a drawing command. -/
lemma set_path_drawn (c : CGContext) (shape : List PathEl) :
    (CoreGraphicsContext.set_path c shape).drawn = c.drawn := by
  simp [CoreGraphicsContext.set_path, foldl_setPathStep_drawn, CGContext.beginPath]

/-- C5 (amended): gradient construction panics (unimplemented stub) for every
descriptor, returning no brush and leaving the context unchanged; and filling any
shape with a Gradient brush panics while setting the fill brush, before the backend
fill executes, so nothing is drawn. -/
theorem gradient_and_gradient_fill_panic :
    (∀ (c : CGContext) (gd : FixedGradient),
        CoreGraphicsContext.gradient c gd = (RunResult.panicked, c)) ∧
    (∀ (c : CGContext) (shape : List PathEl),
        (CoreGraphicsContext.fill c shape Brush.Gradient).1 = RunResult.panicked ∧
        (CoreGraphicsContext.fill c shape Brush.Gradient).2.drawn = c.drawn) := by
  refine ⟨fun c gd => rfl, fun c shape => ?_⟩
  have h := set_path_drawn c shape
  simp [CoreGraphicsContext.fill, Brush.make_brush, Cow.get,
    CoreGraphicsContext.set_fill_brush, h]

/-- A restore immediately after a save returns the context to exactly its prior
state. -/
lemma restore_save_cancel (c : CGContext) : restoreState (saveState c) = c := rfl

/-- N restores undo N saves exactly. -/
lemma iterate_restore_save (n : Nat) (c : CGContext) :
    restoreState^[n] (saveState^[n] c) = c := by
  induction n generalizing c with
  | zero => rfl
  | succ n ih =>
      rw [Function.iterate_succ_apply' saveState n c, Function.iterate_succ_apply restoreState]
      rw [restore_save_cancel]
      exact ih c

/-- C6 (amended): N save calls followed by N restore calls leave the context — clip,
transform, and all saved state — identical to before the first save; but an (N+1)-th
restore without a matching save succeeds silently, returning Ok with the state
unchanged, instead of reporting an error. -/
theorem save_restore_nesting (n : Nat) (c : CGContext) (hc : c.gstack = []) :
    restoreState^[n] (saveState^[n] c) = c ∧
    (CoreGraphicsContext.restore (restoreState^[n] (saveState^[n] c))).1 =
      RunResult.ok () ∧
    (CoreGraphicsContext.restore (restoreState^[n] (saveState^[n] c))).2 = c := by
  obtain ⟨gs, gstk, p, d⟩ := c
  replace hc : gstk = [] := hc
  subst hc
  have h := iterate_restore_save n ⟨gs, [], p, d⟩
  exact ⟨h, rfl, by rw [h]; rfl⟩

/-- Witness for C6 (amended) at N = 2 on a fresh context. -/
theorem save_restore_nesting_witness :
    cgFresh.gstack = [] ∧
    (restoreState^[2] (saveState^[2] cgFresh) = cgFresh ∧
     (CoreGraphicsContext.restore (restoreState^[2] (saveState^[2] cgFresh))).1 =
       RunResult.ok () ∧
     (CoreGraphicsContext.restore (restoreState^[2] (saveState^[2] cgFresh))).2 = cgFresh) :=
  ⟨rfl, save_restore_nesting 2 cgFresh rfl⟩

/-- C6 counterexample: a restore with no matching save on a concrete fresh context
returns Ok and leaves the context unchanged — it succeeds silently rather than
returning an error result. -/
theorem restore_unmatched_ok_cex :
    (CoreGraphicsContext.restore cgFresh).1 = RunResult.ok () ∧
    (CoreGraphicsContext.restore cgFresh).2 = cgFresh :=
  ⟨rfl, rfl⟩

/-- C7: at width 40000 — beyond the backend's surface size limit, so the backend
cannot create the surface — bitmap_target panics on the unwrap of the failed surface
creation instead of returning an allocation-error (BackendFailure) result. -/
theorem bitmap_target_oversize_panics :
    Device.bitmap_target 40000 1 1 = RunResult.panicked := by
  decide

/-- C8: with the png feature absent, save_to_file returns a MissingFeature error for
every encoder collaborator, every target, and every path; it neither panics nor
attempts encoding, and the target is unchanged. -/
theorem save_to_file_missing_feature (encoder : Nat → Nat → Array Nat → RunResult Unit)
    (t : BitmapTarget) (p : String) :
    BitmapTarget.save_to_file false encoder t p =
      (RunResult.err ErrorKind.MissingFeature, t) := rfl

/-- C9: set_path starts its tracked current point at (0,0) (Point::default()), so a
LineTo/QuadTo/CurveTo with no preceding MoveTo is treated as starting from the
origin; and each loop step updates the tracked last point as specified — MoveTo and
LineTo to their point, QuadTo and CurveTo to their end point, ClosePath leaving it
unchanged. -/
theorem set_path_last_point_tracking :
    (∀ (c : CGContext) (shape : List PathEl),
        CoreGraphicsContext.set_path c shape =
          (shape.foldl setPathStep { ctx := c.beginPath, last := ⟨0, 0⟩ }).ctx) ∧
    (∀ (s : SetPathState) (p : Point), (setPathStep s (.MoveTo p)).last = p) ∧
    (∀ (s : SetPathState) (p : Point), (setPathStep s (.LineTo p)).last = p) ∧
    (∀ (s : SetPathState) (p1 p2 : Point), (setPathStep s (.QuadTo p1 p2)).last = p2) ∧
    (∀ (s : SetPathState) (p1 p2 p3 : Point),
        (setPathStep s (.CurveTo p1 p2 p3)).last = p3) ∧
    (∀ (s : SetPathState), (setPathStep s .ClosePath).last = s.last) :=
  ⟨fun _ _ => rfl, fun _ _ => rfl, fun _ _ => rfl, fun _ _ _ => rfl, fun _ _ _ _ => rfl,
    fun _ => rfl⟩

/-- C10: make_brush on a solid brush returns a borrowed copy of the very same brush
value, and its result never depends on the bounding-box thunk — the thunk is not
evaluated. -/
theorem make_brush_solid_lazy :
    (∀ (rgba : Nat) (c : CGContext) (f : Unit → Rect),
        Brush.make_brush (Brush.Solid rgba) c f = Cow.Borrowed (Brush.Solid rgba)) ∧
    (∀ (b : Brush) (c : CGContext) (f g : Unit → Rect),
        Brush.make_brush b c f = Brush.make_brush b c g) :=
  ⟨fun _ _ _ => rfl, fun _ _ _ _ => rfl⟩

/-- Writing at one index of an array leaves every other index unchanged. -/
lemma setD_getElem?_ne {α : Type} (a : Array α) (i j : Nat) (v : α) (h : i ≠ j) :
    (a.setD i v)[j]? = a[j]? := by
  unfold Array.setD
  split
  · exact Array.getElem?_set_ne a ⟨i, by assumption⟩ v h
  · rfl

/-- The pixel-conversion step succeeds when its four reads are in bounds, leaves
every output byte outside its four target positions unchanged, and stores the
native bytes at offsets 2, 1, 0, 3 into output offsets 0, 1, 2, 3. -/
lemma convertPixel_spec (buf raw : Array Nat) (srcOff dstOff x : Nat)
    (hread : srcOff + x * 4 + 3 < buf.size)
    (hwrite : dstOff + x * 4 + 3 < raw.size) :
    ∃ raw2, convertPixel buf srcOff dstOff x raw = some raw2 ∧
      raw2.size = raw.size ∧
      (∀ j, j < dstOff + x * 4 ∨ dstOff + x * 4 + 3 < j → raw2[j]? = raw[j]?) ∧
      raw2[dstOff + x * 4]? = buf[srcOff + x * 4 + 2]? ∧
      raw2[dstOff + x * 4 + 1]? = buf[srcOff + x * 4 + 1]? ∧
      raw2[dstOff + x * 4 + 2]? = buf[srcOff + x * 4]? ∧
      raw2[dstOff + x * 4 + 3]? = buf[srcOff + x * 4 + 3]? := by
  have h0 : srcOff + x * 4 < buf.size := by omega
  have h1 : srcOff + x * 4 + 1 < buf.size := by omega
  have h2 : srcOff + x * 4 + 2 < buf.size := by omega
  unfold convertPixel
  rw [Array.getElem?_lt buf h2, Array.getElem?_lt buf h1, Array.getElem?_lt buf h0,
    Array.getElem?_lt buf hread]
  refine ⟨_, rfl, by simp, ?_, ?_, ?_, ?_, ?_⟩
  · intro j hj
    rw [setD_getElem?_ne _ _ _ _ (by omega), setD_getElem?_ne _ _ _ _ (by omega),
      setD_getElem?_ne _ _ _ _ (by omega), setD_getElem?_ne _ _ _ _ (by omega)]
  · rw [setD_getElem?_ne _ _ _ _ (by omega), setD_getElem?_ne _ _ _ _ (by omega),
      setD_getElem?_ne _ _ _ _ (by omega),
      Array.getElem?_setD_eq _ (by omega) _]
  · rw [setD_getElem?_ne _ _ _ _ (by omega), setD_getElem?_ne _ _ _ _ (by omega),
      Array.getElem?_setD_eq _ (by simp only [Array.size_setD]; omega) _]
  · rw [setD_getElem?_ne _ _ _ _ (by omega),
      Array.getElem?_setD_eq _ (by simp only [Array.size_setD]; omega) _]
  · rw [Array.getElem?_setD_eq _ (by simp only [Array.size_setD]; omega) _]

/-- The inner x loop, over generic row offsets: it succeeds when the whole source
row fits in the buffer, writes only the dOff..dOff+n*4 window, and fills it with
the channel-swapped native bytes. -/
lemma copyPixels_aux (buf : Array Nat) (sOff dOff : Nat) (n : Nat) :
    ∀ raw : Array Nat, sOff + n * 4 ≤ buf.size → dOff + n * 4 ≤ raw.size →
    ∃ raw2,
      (List.range n).foldlM (fun r x => convertPixel buf sOff dOff x r) raw = some raw2 ∧
      raw2.size = raw.size ∧
      (∀ j, j < dOff ∨ dOff + n * 4 ≤ j → raw2[j]? = raw[j]?) ∧
      (∀ x, x < n →
        raw2[dOff + x * 4]? = buf[sOff + x * 4 + 2]? ∧
        raw2[dOff + x * 4 + 1]? = buf[sOff + x * 4 + 1]? ∧
        raw2[dOff + x * 4 + 2]? = buf[sOff + x * 4]? ∧
        raw2[dOff + x * 4 + 3]? = buf[sOff + x * 4 + 3]?) := by
  induction n with
  | zero =>
      intro raw _ _
      exact ⟨raw, rfl, rfl, fun j _ => rfl, fun x hx => absurd hx (Nat.not_lt_zero x)⟩
  | succ n ih =>
      intro raw hbuf hraw
      obtain ⟨r1, hfold, hsize, hpres, hvals⟩ := ih raw (by omega) (by omega)
      have hread : sOff + n * 4 + 3 < buf.size := by omega
      have hwrite : dOff + n * 4 + 3 < r1.size := by omega
      obtain ⟨r2, hconv, hsize2, hpres2, hv0, hv1, hv2, hv3⟩ :=
        convertPixel_spec buf r1 sOff dOff n hread hwrite
      refine ⟨r2, ?_, by omega, ?_, ?_⟩
      · rw [List.range_succ, List.foldlM_append, hfold]
        simp [hconv]
      · intro j hj
        rw [hpres2 j (by omega), hpres j (by omega)]
      · intro x hx
        rcases Nat.lt_or_ge x n with hxn | hxn
        · obtain ⟨e0, e1, e2, e3⟩ := hvals x hxn
          rw [hpres2 _ (by omega), hpres2 _ (by omega), hpres2 _ (by omega),
            hpres2 _ (by omega)]
          exact ⟨e0, e1, e2, e3⟩
        · have hx2 : x = n := by omega
          subst hx2
          exact ⟨hv0, hv1, hv2, hv3⟩

/-- A destination byte position of row y and pixel x lies below the end of row y's
window in the packed output. -/
lemma dst_index_lt_mul (width m y x k : Nat) (hy : y < m) (hx : x < width) (hk : k ≤ 3) :
    y * width * 4 + x * 4 + k < m * width * 4 := by
  have hA : x * 4 + k < width * 4 := by omega
  calc y * width * 4 + x * 4 + k
      = y * (width * 4) + (x * 4 + k) := by ring
    _ < y * (width * 4) + width * 4 := Nat.add_lt_add_left hA _
    _ = (y + 1) * (width * 4) := by ring
    _ ≤ m * (width * 4) := Nat.mul_le_mul_right (width * 4) hy
    _ = m * width * 4 := by ring

/-- The y loop over the first m rows: it succeeds under the backend stride and
buffer-size invariants and fills all processed rows with channel-swapped bytes. -/
lemma copyRows_aux (buf : Array Nat) (stride width height : Nat)
    (hstride : 4 * width ≤ stride) (hdata : height * stride ≤ buf.size) :
    ∀ m, m ≤ height → ∀ raw : Array Nat, raw.size = width * height * 4 →
    ∃ out,
      (List.range m).foldlM (fun r y => copyRow buf stride width y r) raw = some out ∧
      out.size = raw.size ∧
      (∀ y, y < m → ∀ x, x < width →
        out[y * width * 4 + x * 4]? = buf[y * stride + x * 4 + 2]? ∧
        out[y * width * 4 + x * 4 + 1]? = buf[y * stride + x * 4 + 1]? ∧
        out[y * width * 4 + x * 4 + 2]? = buf[y * stride + x * 4]? ∧
        out[y * width * 4 + x * 4 + 3]? = buf[y * stride + x * 4 + 3]?) := by
  intro m
  induction m with
  | zero =>
      intro _ raw _
      exact ⟨raw, rfl, rfl, fun y hy => absurd hy (Nat.not_lt_zero y)⟩
  | succ m ih =>
      intro hm1 raw hraw
      obtain ⟨out1, hfold, hsize1, hvals1⟩ := ih (by omega) raw hraw
      have hm : m + 1 ≤ height := hm1
      have hbuf : m * stride + width * 4 ≤ buf.size := by
        have h1 : width * 4 ≤ stride := by omega
        calc m * stride + width * 4
            ≤ m * stride + stride := Nat.add_le_add_left h1 _
          _ = (m + 1) * stride := by ring
          _ ≤ height * stride := Nat.mul_le_mul_right stride hm
          _ ≤ buf.size := hdata
      have hraw2 : m * width * 4 + width * 4 ≤ out1.size := by
        rw [hsize1, hraw]
        calc m * width * 4 + width * 4
            = (m + 1) * (width * 4) := by ring
          _ ≤ height * (width * 4) := Nat.mul_le_mul_right (width * 4) hm
          _ = width * height * 4 := by ring
      obtain ⟨out2, hrow, hsize2, hpres2, hvals2⟩ :=
        copyPixels_aux buf (m * stride) (m * width * 4) width out1 hbuf hraw2
      refine ⟨out2, ?_, by rw [hsize2, hsize1], ?_⟩
      · rw [List.range_succ, List.foldlM_append, hfold]
        simp only [Option.bind_eq_bind, Option.some_bind, List.foldlM_cons, List.foldlM_nil]
        have hrow2 : copyRow buf stride width m out1 = some out2 := hrow
        simp [hrow2]
      · intro y hy x hx
        rcases Nat.lt_or_ge y m with hym | hym
        · obtain ⟨e0, e1, e2, e3⟩ := hvals1 y hym x hx
          rw [hpres2 _ (Or.inl (by
                simpa using dst_index_lt_mul width m y x 0 hym hx (by omega))),
            hpres2 _ (Or.inl (dst_index_lt_mul width m y x 1 hym hx (by omega))),
            hpres2 _ (Or.inl (dst_index_lt_mul width m y x 2 hym hx (by omega))),
            hpres2 _ (Or.inl (dst_index_lt_mul width m y x 3 hym hx (by omega)))]
          exact ⟨e0, e1, e2, e3⟩
        · have hy2 : y = m := by omega
          subst hy2
          exact hvals2 x hx

/-- Requesting RgbaPremul pixels runs the row-by-row copy over a zeroed
width*height*4 output and rebinds a fresh context on success. -/
lemma get_raw_pixels_premul_eq (t : BitmapTarget) :
    t.get_raw_pixels ImageFormat.RgbaPremul =
      (match copyRows t.surface.data t.surface.stride t.surface.width t.surface.height
          (Array.mkArray (t.surface.width * t.surface.height * 4) 0) with
        | none => (RunResult.panicked, { t with cr := Context.new placeholderSurface })
        | some out => (RunResult.ok out, { t with cr := Context.new t.surface })) := rfl

/-- Full characterization of a successful extraction: under the backend invariants
(stride at least the tight row width, buffer covering height*stride bytes) the call
succeeds, the output has exactly width*height*4 bytes, and every output pixel holds
the native bytes reordered from B,G,R,A to R,G,B,A. -/
lemma get_raw_pixels_spec (t : BitmapTarget)
    (hstride : 4 * t.surface.width ≤ t.surface.stride)
    (hdata : t.surface.height * t.surface.stride ≤ t.surface.data.size) :
    ∃ out, (t.get_raw_pixels ImageFormat.RgbaPremul).1 = RunResult.ok out ∧
      out.size = t.surface.width * t.surface.height * 4 ∧
      (∀ y, y < t.surface.height → ∀ x, x < t.surface.width →
        out[y * t.surface.width * 4 + x * 4]? =
          t.surface.data[y * t.surface.stride + x * 4 + 2]? ∧
        out[y * t.surface.width * 4 + x * 4 + 1]? =
          t.surface.data[y * t.surface.stride + x * 4 + 1]? ∧
        out[y * t.surface.width * 4 + x * 4 + 2]? =
          t.surface.data[y * t.surface.stride + x * 4]? ∧
        out[y * t.surface.width * 4 + x * 4 + 3]? =
          t.surface.data[y * t.surface.stride + x * 4 + 3]?) := by
  obtain ⟨out, hfold, hsize, hvals⟩ :=
    copyRows_aux t.surface.data t.surface.stride t.surface.width t.surface.height hstride
      hdata t.surface.height (le_refl _)
      (Array.mkArray (t.surface.width * t.surface.height * 4) 0) (by simp)
  have hrows : copyRows t.surface.data t.surface.stride t.surface.width t.surface.height
      (Array.mkArray (t.surface.width * t.surface.height * 4) 0) = some out := hfold
  refine ⟨out, ?_, by rw [hsize]; simp, hvals⟩
  rw [get_raw_pixels_premul_eq, hrows]

/-- C1: for a surface of width W and height H satisfying the backend surface
invariants (stride at least the tight row width 4*W — including strides strictly
greater than W*4 — and a native buffer covering H*stride bytes), get_raw_pixels
with format RgbaPremul, and the consuming into_raw_pixels, return a buffer of
exactly W*H*4 bytes with no row padding, independent of the stride. -/
theorem get_raw_pixels_size (t : BitmapTarget)
    (hstride : 4 * t.surface.width ≤ t.surface.stride)
    (hdata : t.surface.height * t.surface.stride ≤ t.surface.data.size) :
    ∃ out, (t.get_raw_pixels ImageFormat.RgbaPremul).1 = RunResult.ok out ∧
      t.into_raw_pixels ImageFormat.RgbaPremul = RunResult.ok out ∧
      out.size = t.surface.width * t.surface.height * 4 := by
  obtain ⟨out, h1, h2, _⟩ := get_raw_pixels_spec t hstride hdata
  exact ⟨out, h1, h1, h2⟩

/-- Witness for C1 on a concrete 1x2 surface whose stride 8 strictly exceeds the
tight row width 4. -/
theorem get_raw_pixels_size_witness :
    4 * sampleTarget.surface.width ≤ sampleTarget.surface.stride ∧
    sampleTarget.surface.height * sampleTarget.surface.stride ≤
      sampleTarget.surface.data.size ∧
    ∃ out, (sampleTarget.get_raw_pixels ImageFormat.RgbaPremul).1 = RunResult.ok out ∧
      sampleTarget.into_raw_pixels ImageFormat.RgbaPremul = RunResult.ok out ∧
      out.size = sampleTarget.surface.width * sampleTarget.surface.height * 4 :=
  ⟨by decide, by decide, get_raw_pixels_size sampleTarget (by decide) (by decide)⟩

/-- C2: for every pixel (x, y) of a native backend buffer with per-pixel byte order
blue, green, red, alpha, the RgbaPremul output of get_raw_pixels holds at the same
pixel coordinates the bytes reordered to red, green, blue, alpha: output byte 0 is
native byte 2, byte 1 is native byte 1, byte 2 is native byte 0, and the alpha
byte 3 is copied unchanged. -/
theorem get_raw_pixels_channel_reorder (t : BitmapTarget) (x y : Nat)
    (hstride : 4 * t.surface.width ≤ t.surface.stride)
    (hdata : t.surface.height * t.surface.stride ≤ t.surface.data.size)
    (hx : x < t.surface.width) (hy : y < t.surface.height) :
    ∃ out, (t.get_raw_pixels ImageFormat.RgbaPremul).1 = RunResult.ok out ∧
      out[y * t.surface.width * 4 + x * 4]? =
        t.surface.data[y * t.surface.stride + x * 4 + 2]? ∧
      out[y * t.surface.width * 4 + x * 4 + 1]? =
        t.surface.data[y * t.surface.stride + x * 4 + 1]? ∧
      out[y * t.surface.width * 4 + x * 4 + 2]? =
        t.surface.data[y * t.surface.stride + x * 4]? ∧
      out[y * t.surface.width * 4 + x * 4 + 3]? =
        t.surface.data[y * t.surface.stride + x * 4 + 3]? := by
  obtain ⟨out, h1, _, hvals⟩ := get_raw_pixels_spec t hstride hdata
  obtain ⟨e0, e1, e2, e3⟩ := hvals y hy x hx
  exact ⟨out, h1, e0, e1, e2, e3⟩

/-- Witness for C2 at pixel (0, 1) of the concrete sample surface. -/
theorem get_raw_pixels_channel_reorder_witness :
    (4 * sampleTarget.surface.width ≤ sampleTarget.surface.stride ∧
     sampleTarget.surface.height * sampleTarget.surface.stride ≤
       sampleTarget.surface.data.size ∧
     0 < sampleTarget.surface.width ∧ 1 < sampleTarget.surface.height) ∧
    (∃ out,
      (sampleTarget.get_raw_pixels ImageFormat.RgbaPremul).1 = RunResult.ok out ∧
      out[1 * sampleTarget.surface.width * 4 + 0 * 4]? =
        sampleTarget.surface.data[1 * sampleTarget.surface.stride + 0 * 4 + 2]? ∧
      out[1 * sampleTarget.surface.width * 4 + 0 * 4 + 1]? =
        sampleTarget.surface.data[1 * sampleTarget.surface.stride + 0 * 4 + 1]? ∧
      out[1 * sampleTarget.surface.width * 4 + 0 * 4 + 2]? =
        sampleTarget.surface.data[1 * sampleTarget.surface.stride + 0 * 4]? ∧
      out[1 * sampleTarget.surface.width * 4 + 0 * 4 + 3]? =
        sampleTarget.surface.data[1 * sampleTarget.surface.stride + 0 * 4 + 3]?) :=
  ⟨⟨by decide, by decide, by decide, by decide⟩,
    get_raw_pixels_channel_reorder sampleTarget 0 1 (by decide) (by decide) (by decide)
      (by decide)⟩
